import Mathlib

/-!
Verification development for the ConfigX hierarchical configuration store.

The `ConfigTree` operations (`_split`, `_walk`, `get`, `set`, `delete`,
`to_dict`, `load_dict`) are shallow embeddings of `src/configx/core/tree.py`.
Python's in-place mutation is modelled by returning the post-call tree next
to the result, so an operation that raises after mutating still exposes the
mutated tree.

The `Node` record and its methods (`infer_type`, `to_primitive`,
`from_primitive`), and the binary persistence codec
(`save_to_bin` / `load_from_bin`), are not present under `src/`; they are
modelled from the spec (sections 3, 4.3, 4.4, 4.6, 6) and marked as such.

Python runtime values are embedded as the closed variant `PyVal`
(string / integer / float / boolean / null / mapping); dictionary keys are
`PyKey`, which may be a non-string (to model malformed `load_dict` input).
Python `float` payloads are carried as `Rat`: no arithmetic is ever done on
them by this program, they are only stored and retrieved.
-/

/-- Scalar type tags, per spec section 3: `type` records which scalar kind
`value` holds. -/
inductive NodeType where
  | string
  | integer
  | floating
  | boolean
  | null
deriving DecidableEq, Repr

/-- A Python dict key: a string, or a non-string key (tagged by a number),
which `load_dict` must reject. -/
inductive PyKey where
  | str (s : String)
  | nonstr (tag : Nat)
deriving DecidableEq, Repr

mutual
/-- A Python runtime value as this program sees it: a scalar
(string / int / float / bool / None) or a dict. -/
inductive PyVal where
  | str (s : String)
  | int (n : Int)
  | float (q : Rat)
  | bool (b : Bool)
  | null
  | dict (es : Entries)

/-- The entry list of a Python dict, in insertion order. -/
inductive Entries where
  | nil
  | cons (k : PyKey) (v : PyVal) (rest : Entries)
end

mutual
/-- Modelled from the spec: the `Node` record of `configx/core/node.py`
(absent from `src/`), per spec section 3: `name`, `children` (named child
nodes in insertion order), `value` (scalar payload, absent for interior
nodes), `type` (inferred scalar tag). -/
inductive Node where
  | mk (name : String) (children : NodeMap) (value : Option PyVal)
      (ntype : Option NodeType)

/-- The `children` mapping of a `Node`: child name to owned child node,
insertion order preserved (spec section 3). Models a Python dict. -/
inductive NodeMap where
  | nil
  | cons (key : String) (node : Node) (rest : NodeMap)
end

def Node.name : Node → String
  | .mk n _ _ _ => n

def Node.children : Node → NodeMap
  | .mk _ c _ _ => c

def Node.value : Node → Option PyVal
  | .mk _ _ v _ => v

def Node.ntype : Node → Option NodeType
  | .mk _ _ _ t => t

/-- Replace only the `children` field, as Python's `node.children = ...`. -/
def Node.withChildren : Node → NodeMap → Node
  | .mk n _ v t, c => .mk n c v t

/-- A fresh interior node, as `Node(name=part)` in `tree.py`. -/
def Node.new (name : String) : Node :=
  .mk name .nil none none

/-- First-match lookup, as `node.children[part]` on a Python dict. -/
def NodeMap.lookup : NodeMap → String → Option Node
  | .nil, _ => none
  | .cons k n rest, key => if k = key then some n else rest.lookup key

/-- Replace the first entry carrying `key` (Python dict item assignment when
the key is present). -/
def NodeMap.replace : NodeMap → String → Node → NodeMap
  | .nil, _, _ => .nil
  | .cons k n rest, key, node =>
      if k = key then .cons k node rest else .cons k n (rest.replace key node)

/-- Append a new entry at the end (Python dict item assignment when the key
is absent: insertion order is preserved). -/
def NodeMap.append1 : NodeMap → String → Node → NodeMap
  | .nil, key, node => .cons key node .nil
  | .cons k n rest, key, node => .cons k n (rest.append1 key node)

/-- Remove the first entry carrying `key`, as `parent.children.pop(key)`. -/
def NodeMap.erase : NodeMap → String → NodeMap
  | .nil, _ => .nil
  | .cons k n rest, key => if k = key then rest else .cons k n (rest.erase key)

def NodeMap.isEmpty : NodeMap → Bool
  | .nil => true
  | .cons _ _ _ => false

def NodeMap.hasKey : NodeMap → String → Bool
  | .nil, _ => false
  | .cons k _ rest, key => k = key || rest.hasKey key

mutual
/-- Well-formedness of a node: no two children share a name, recursively.
Every tree a Python `ConfigTree` can hold satisfies this, since `children`
is a Python dict. -/
def Node.wf : Node → Bool
  | .mk _ ch _ _ => ch.keysNodup && ch.allWf

/-- No duplicate keys at this level. -/
def NodeMap.keysNodup : NodeMap → Bool
  | .nil => true
  | .cons k _ rest => !rest.hasKey k && rest.keysNodup

/-- All nodes of the mapping are well-formed. -/
def NodeMap.allWf : NodeMap → Bool
  | .nil => true
  | .cons _ n rest => n.wf && rest.allWf
end

/-- Modelled from the spec: `Node.infer_type` of `configx/core/node.py`
(absent from `src/`), per spec section 4.4: boolean before integer, then
integer, float, string, null, by the scalar's intrinsic kind; a non-scalar
gets no tag. -/
def Node.infer_type : PyVal → Option NodeType
  | .bool _ => some .boolean
  | .int _ => some .integer
  | .float _ => some .floating
  | .str _ => some .string
  | .null => some .null
  | .dict _ => none

mutual
/-- Modelled from the spec: `Node.to_primitive` of `configx/core/node.py`
(absent from `src/`), per spec section 4.3: a nested mapping for an interior
node (recursively from the children), the scalar for a leaf, and an empty
mapping for a node with neither children nor value. -/
def Node.to_primitive : Node → PyVal
  | .mk _ (.cons k n rest) _ _ => .dict (NodeMap.toEntries (.cons k n rest))
  | .mk _ .nil (some v) _ => v
  | .mk _ .nil none _ => .dict .nil

/-- The primitive projection of a children mapping. -/
def NodeMap.toEntries : NodeMap → Entries
  | .nil => .nil
  | .cons k n rest => .cons (.str k) n.to_primitive rest.toEntries
end

/-- The error kinds of `configx/core/errors.py`, as imported by `tree.py`:
`ConfigInvalidPathError`, `ConfigPathNotFoundError`, `ConfigStrictModeError`,
`ConfigNodeStructureError`, `ConfigInvalidFormatError`, plus the codec's
format error (spec section 6). -/
inductive Err where
  | invalidPath (path : String) (msg : String)
  | pathNotFound (path : String)
  | strictMode (path : String)
  | nodeStructure (path : String) (msg : String)
  | invalidFormat (msg : String)
  | formatError
deriving DecidableEq, Repr

mutual
/-- Modelled from the spec: `Node.from_primitive` of `configx/core/node.py`
(absent from `src/`), per spec section 4.6: a scalar becomes a leaf with its
inferred type; a nested mapping becomes an interior node built recursively;
a non-string key at any depth fails with the invalid-format error, aborting
the rebuild. -/
def Node.from_primitive (name : String) : PyVal → Except Err Node
  | .dict es =>
      match NodeMap.fromEntries es with
      | .ok ch => .ok (.mk name ch none none)
      | .error e => .error e
  | v => .ok (.mk name .nil (some v) (Node.infer_type v))

/-- Build a children mapping from dict entries, rejecting non-string keys. -/
def NodeMap.fromEntries : Entries → Except Err NodeMap
  | .nil => .ok .nil
  | .cons (.str s) v rest =>
      match Node.from_primitive s v with
      | .ok n =>
          match NodeMap.fromEntries rest with
          | .ok ch => .ok (.cons s n ch)
          | .error e => .error e
      | .error e => .error e
  | .cons (.nonstr _) _ _ => .error (.invalidFormat "All keys must be strings.")
end

/-! ## Path splitting (`ConfigTree._split`)

`tree.py` computes `[p for p in path.strip().split(".") if p]`. Python's
`strip` / `split` are embedded character by character so every definition
evaluates by reduction. -/

/-- Python's `str.split(".")`: cut at every dot, keeping empty pieces
(`"".split(".") == [""]`). `acc` holds the current piece reversed. -/
def splitDotChars : List Char → List Char → List String
  | [], acc => [String.mk acc.reverse]
  | c :: rest, acc =>
      if c = '.' then String.mk acc.reverse :: splitDotChars rest []
      else splitDotChars rest (c :: acc)

/-- Python's `str.strip()`: drop whitespace from both ends. -/
def stripChars (cs : List Char) : List Char :=
  ((cs.dropWhile Char.isWhitespace).reverse.dropWhile Char.isWhitespace).reverse

/-- `path.strip().split(".")`. -/
def pySplit (path : String) : List String :=
  splitDotChars (stripChars path.toList) []

/-- `ConfigTree._split` (tree.py lines 44-59): normalize and split a dotted
path; empty segments are discarded; an empty result is an invalid path.
(The Python `path is None` branch has no counterpart: `path` is a `String`.) -/
def ConfigTree.splitPath (path : String) : Except Err (List String) :=
  let parts := (pySplit path).filter (fun p => p ≠ "")
  if parts.isEmpty then .error (.invalidPath path "Path cannot be empty.")
  else .ok parts

/-! ## Traversal (`ConfigTree._walk`) -/

/-- `ConfigTree._walk` with `create_missing=False` (tree.py lines 61-91):
descend through existing children only; `none` when a segment is missing.
No mutation happens in this mode. -/
def walkNoCreate : Node → List String → Option Node
  | node, [] => some node
  | node, p :: rest =>
      match node.children.lookup p with
      | some c => walkNoCreate c rest
      | none => none

/-- `ConfigTree._walk` with `create_missing=True` (tree.py lines 61-91):
descend, creating a fresh interior node for each missing segment unless
strict mode is on, in which case `ConfigStrictModeError(path)` is raised
before anything is created. Mutation is modelled by returning the updated
root; the node `_walk` hands back is the one now sitting at the walked
path (see `walkNoCreate`). -/
def walkCreate (strict : Bool) (path : String) : Node → List String → Except Err Node
  | node, [] => .ok node
  | node, p :: rest =>
      match node.children.lookup p with
      | some c =>
          match walkCreate strict path c rest with
          | .ok c' => .ok (node.withChildren (node.children.replace p c'))
          | .error e => .error e
      | none =>
          if strict then .error (.strictMode path)
          else
            match walkCreate strict path (Node.new p) rest with
            | .ok c' => .ok (node.withChildren (node.children.append1 p c'))
            | .error e => .error e

/-- Apply `f` to the node at `parts` (first-match discipline, the same one
`_walk` descends by); identity when the path does not resolve. This models
Python mutating, in place, the node object `_walk` returned. -/
def updateAt : Node → List String → (Node → Node) → Node
  | node, [], f => f node
  | node, p :: rest, f =>
      match node.children.lookup p with
      | some c => node.withChildren (node.children.replace p (updateAt c rest f))
      | none => node

/-! ## The tree and its operations -/

/-- `ConfigTree.__init__` (tree.py lines 30-42): a root node named
`"root"` and the strict-mode flag. -/
structure ConfigTree where
  root : Node
  strict_mode : Bool

/-- `ConfigTree()` with the default `strict_mode=False`. -/
def ConfigTree.fresh : ConfigTree :=
  ⟨Node.new "root", false⟩

/-- `ConfigTree(strict_mode=True)`. -/
def ConfigTree.freshStrict : ConfigTree :=
  ⟨Node.new "root", true⟩

/-- `ConfigTree.set_strict_mode` (tree.py lines 184-186). -/
def ConfigTree.set_strict_mode (t : ConfigTree) (enabled : Bool) : ConfigTree :=
  { t with strict_mode := enabled }

/-- `ConfigTree.get` (tree.py lines 94-103): walk without creating; raise
`ConfigPathNotFoundError` on absence; otherwise the node's primitive
projection. `get` never mutates, so only the result is returned. -/
def ConfigTree.get (t : ConfigTree) (path : String) : Except Err PyVal :=
  match ConfigTree.splitPath path with
  | .error e => .error e
  | .ok parts =>
      match walkNoCreate t.root parts with
      | some node => .ok node.to_primitive
      | none => .error (.pathNotFound path)

/-- `ConfigTree.set` (tree.py lines 106-136): split, walk with creation
(strict mode may refuse), defensively re-raise `PathNotFound` on a `None`
walk result, refuse to assign onto a node that has children
(`ConfigNodeStructureError`), else store the value, its inferred type, and
clear `children`. The second component is the tree after the call — note
the node-structure failure surfaces the post-walk tree, exactly as the
Python object graph is left. -/
def ConfigTree.set (t : ConfigTree) (path : String) (value : PyVal) :
    Except Err PyVal × ConfigTree :=
  match ConfigTree.splitPath path with
  | .error e => (.error e, t)
  | .ok parts =>
      match walkCreate t.strict_mode path t.root parts with
      | .error e => (.error e, t)
      | .ok root' =>
          match walkNoCreate root' parts with
          | none => (.error (.pathNotFound path), { t with root := root' })
          | some node =>
              if node.children.isEmpty then
                (.ok value,
                 { t with
                     root := updateAt root' parts
                       (fun n => .mk n.name .nil (some value)
                         (Node.infer_type value)) })
              else
                (.error (.nodeStructure path
                    "Cannot assign value to an interior node; it has children."),
                 { t with root := root' })

/-- Python's `".".join(parts)`. -/
def joinDot : List String → String
  | [] => ""
  | [s] => s
  | s :: rest => s ++ "." ++ joinDot rest

/-- The segments `delete` walks to find the parent: `root` directly when the
path has a single segment, else `_split(".".join(parts[:-1]))` — note the
re-split, which re-strips whitespace and re-filters empty segments. -/
def deleteParentParts (parts : List String) : Except Err (List String) :=
  if parts.dropLast.isEmpty then .ok []
  else ConfigTree.splitPath (joinDot parts.dropLast)

/-- `ConfigTree.delete` (tree.py lines 138-160): deleting the root path is a
`ConfigNodeStructureError`; the parent is resolved by re-splitting the joined
prefix; an unresolved parent or an absent final key returns `false`;
otherwise the child (with its whole subtree) is popped and `true` returned. -/
def ConfigTree.delete (t : ConfigTree) (path : String) :
    Except Err Bool × ConfigTree :=
  match ConfigTree.splitPath path with
  | .error e => (.error e, t)
  | .ok parts =>
      if parts = ["root"] then
        (.error (.nodeStructure path "Cannot delete root node."), t)
      else
        match deleteParentParts parts with
        | .error e => (.error e, t)
        | .ok pparts =>
            match walkNoCreate t.root pparts with
            | none => (.ok false, t)
            | some parent =>
                let key := parts.getLastD ""
                match parent.children.lookup key with
                | none => (.ok false, t)
                | some _ =>
                    (.ok true,
                     { t with
                         root := updateAt t.root pparts
                           (fun n => n.withChildren (n.children.erase key)) })

/-- `ConfigTree.to_dict` (tree.py lines 162-166): the root's primitive
projection, or an empty mapping when the root has no children. -/
def ConfigTree.to_dict (t : ConfigTree) : PyVal :=
  if t.root.children.isEmpty then .dict .nil else t.root.to_primitive

/-- The body of `load_dict`'s loop over `data.items()` (tree.py lines
178-182), acting on the freshly installed root: reject a non-string key,
else attach the subtree `Node.from_primitive` builds. On failure the
partially rebuilt root is surfaced, exactly as Python leaves `self.root`. -/
def loadEntries : Node → Entries → Except Err Unit × Node
  | root, .nil => (.ok (), root)
  | root, .cons (.nonstr _) _ _ =>
      (.error (.invalidFormat "All keys must be strings."), root)
  | root, .cons (.str s) v rest =>
      match Node.from_primitive s v with
      | .ok child =>
          loadEntries (root.withChildren (root.children.append1 s child)) rest
      | .error e => (.error e, root)

/-- `ConfigTree.load_dict` (tree.py lines 168-182): reject a non-mapping
input (tree untouched), then install a fresh root and fill it entry by
entry — the old tree is discarded before the keys are checked. -/
def ConfigTree.load_dict (t : ConfigTree) (data : PyVal) :
    Except Err Unit × ConfigTree :=
  match data with
  | .dict es =>
      match loadEntries (Node.new "root") es with
      | (r, root') => (r, { t with root := root' })
  | _ => (.error (.invalidFormat "Top-level configuration must be a dict."), t)

/-! ## Binary persistence codec

Modelled from the spec: `save_to_bin` / `load_from_bin` and the codec they
delegate to are not under `src/` (only the test `src/tests/test_bin.py`
calls them). Spec section 6 fixes only the contract — round-trip fidelity
of every scalar's type tag, and rejection of streams that do not decode —
and section 9 recommends a length-prefixed tagged layout, which is what is
modelled here: a byte stream as a list of naturals, each value introduced
by a tag. -/

def Entries.length : Entries → Nat
  | .nil => 0
  | .cons _ _ rest => 1 + rest.length

def encodeString (s : String) : List Nat :=
  s.toList.length :: s.toList.map Char.toNat

def encodeKey : PyKey → List Nat
  | .str s => 0 :: encodeString s
  | .nonstr t => [1, t]

mutual
def encodeVal : PyVal → List Nat
  | .str s => 0 :: encodeString s
  | .int n => [1, if n < 0 then 1 else 0, n.natAbs]
  | .float q => [2, if q.num < 0 then 1 else 0, q.num.natAbs, q.den]
  | .bool b => [3, if b then 1 else 0]
  | .null => [4]
  | .dict es => 5 :: es.length :: encodeEntries es

def encodeEntries : Entries → List Nat
  | .nil => []
  | .cons k v rest => encodeKey k ++ encodeVal v ++ encodeEntries rest
end

def decodeChars : Nat → List Nat → Option (List Char × List Nat)
  | 0, ts => some ([], ts)
  | _ + 1, [] => none
  | n + 1, c :: ts =>
      match decodeChars n ts with
      | some (cs, rest) => some (Char.ofNat c :: cs, rest)
      | none => none

def decodeString : List Nat → Option (String × List Nat)
  | [] => none
  | n :: ts =>
      match decodeChars n ts with
      | some (cs, rest) => some (String.mk cs, rest)
      | none => none

def decodeKey : List Nat → Option (PyKey × List Nat)
  | 0 :: ts =>
      match decodeString ts with
      | some (s, rest) => some (.str s, rest)
      | none => none
  | 1 :: t :: ts => some (.nonstr t, ts)
  | _ => none

mutual
def decodeVal : Nat → List Nat → Option (PyVal × List Nat)
  | 0, _ => none
  | _ + 1, 0 :: ts =>
      match decodeString ts with
      | some (s, rest) => some (.str s, rest)
      | none => none
  | _ + 1, 1 :: sg :: m :: ts =>
      some (.int (if sg = 1 then -(m : Int) else (m : Int)), ts)
  | _ + 1, 2 :: sg :: m :: d :: ts =>
      some (.float (if sg = 1 then -(mkRat m d) else mkRat m d), ts)
  | _ + 1, 3 :: b :: ts => some (.bool (b = 1), ts)
  | _ + 1, 4 :: ts => some (.null, ts)
  | fuel + 1, 5 :: n :: ts =>
      match decodeEntriesN fuel n ts with
      | some (es, rest) => some (.dict es, rest)
      | none => none
  | _ + 1, _ => none

def decodeEntriesN : Nat → Nat → List Nat → Option (Entries × List Nat)
  | 0, _, _ => none
  | _ + 1, 0, ts => some (.nil, ts)
  | fuel + 1, n + 1, ts =>
      match decodeKey ts with
      | some (k, ts1) =>
          match decodeVal fuel ts1 with
          | some (v, ts2) =>
              match decodeEntriesN fuel n ts2 with
              | some (es, ts3) => some (.cons k v es, ts3)
              | none => none
          | none => none
      | none => none
end

/-- Decode a whole stream; anything left over, or a failed parse, is a
format error (spec section 6: truncated or structurally invalid streams are
rejected, never returned as a partial mapping). -/
def decode (bs : List Nat) : Option PyVal :=
  match decodeVal (bs.length + 1) bs with
  | some (v, []) => some v
  | _ => none

/-- Modelled from the spec: `ConfigTree.save_to_bin` (called by
`src/tests/test_bin.py`, not under `src/`): encode the tree's mapping form. -/
def ConfigTree.save_to_bin (t : ConfigTree) : List Nat :=
  encodeVal t.to_dict

/-- Modelled from the spec: `ConfigTree.load_from_bin` (called by
`src/tests/test_bin.py`, not under `src/`): decode the stream and load the
mapping; a stream that does not decode is a format error and the tree is
left unmodified (spec sections 6 and 7). -/
def ConfigTree.load_from_bin (t : ConfigTree) (bs : List Nat) :
    Except Err Unit × ConfigTree :=
  match decode bs with
  | some v => t.load_dict v
  | none => (.error .formatError, t)

/-! ## Auxiliary predicates used by the theorems -/

/-- Python's `isinstance(data, dict)`. -/
def PyVal.isDict : PyVal → Bool
  | .dict _ => true
  | _ => false

/-- Is the value a scalar (string / integer / float / boolean / null)? -/
def PyVal.isScalar : PyVal → Bool
  | .dict _ => false
  | _ => true

/-- Does some top-level key of the entry list fail Python's
`isinstance(key, str)`? -/
def Entries.hasNonStrKey : Entries → Bool
  | .nil => false
  | .cons (.str _) _ rest => rest.hasNonStrKey
  | .cons (.nonstr _) _ _ => true

/-! ## Lemmas about children mappings and traversal -/

theorem NodeMap.lookup_replace {k : String} {c : Node} (x : Node) :
    ∀ (ch : NodeMap), ch.lookup k = some c → (ch.replace k x).lookup k = some x
  | .nil, h => by simp [NodeMap.lookup] at h
  | .cons k' n rest, h => by
      by_cases hk : k' = k
      · simp [NodeMap.replace, NodeMap.lookup, hk]
      · simp only [NodeMap.lookup, if_neg hk] at h
        simp [NodeMap.replace, NodeMap.lookup, hk,
          NodeMap.lookup_replace x rest h]

theorem NodeMap.replace_self {k : String} {c : Node} :
    ∀ (ch : NodeMap), ch.lookup k = some c → ch.replace k c = ch
  | .nil, h => by simp [NodeMap.lookup] at h
  | .cons k' n rest, h => by
      by_cases hk : k' = k
      · simp only [NodeMap.lookup, if_pos hk] at h
        injection h with h
        simp [NodeMap.replace, hk, h]
      · simp only [NodeMap.lookup, if_neg hk] at h
        simp [NodeMap.replace, hk, NodeMap.replace_self rest h]

theorem NodeMap.lookup_append1_of_none {k : String} (x : Node) :
    ∀ (ch : NodeMap), ch.lookup k = none → (ch.append1 k x).lookup k = some x
  | .nil, _ => by simp [NodeMap.append1, NodeMap.lookup]
  | .cons k' n rest, h => by
      by_cases hk : k' = k
      · simp [NodeMap.lookup, hk] at h
      · simp only [NodeMap.lookup, if_neg hk] at h
        simp [NodeMap.append1, NodeMap.lookup, hk,
          NodeMap.lookup_append1_of_none x rest h]

theorem Node.withChildren_self (n : Node) : n.withChildren n.children = n := by
  cases n
  rfl

theorem Node.children_withChildren (n : Node) (ch : NodeMap) :
    (n.withChildren ch).children = ch := by
  cases n
  rfl

theorem walkNoCreate_append (n : Node) (a b : List String) :
    walkNoCreate n (a ++ b) = (walkNoCreate n a).bind (fun m => walkNoCreate m b) := by
  induction a generalizing n with
  | nil => simp [walkNoCreate]
  | cons p rest ih =>
      simp only [List.cons_append, walkNoCreate]
      cases n.children.lookup p with
      | none => simp
      | some c => simp [ih c]

theorem walkNoCreate_updateAt {n m : Node} {ps : List String}
    (f : Node → Node) (h : walkNoCreate n ps = some m) :
    walkNoCreate (updateAt n ps f) ps = some (f m) := by
  induction ps generalizing n with
  | nil =>
      simp [walkNoCreate] at h
      simp [updateAt, walkNoCreate, h]
  | cons p rest ih =>
      simp only [walkNoCreate] at h
      cases hc : n.children.lookup p with
      | none => simp [hc] at h
      | some c =>
          simp only [hc] at h
          simp only [updateAt, hc, walkNoCreate, Node.children_withChildren,
            NodeMap.lookup_replace _ _ hc]
          exact ih h

theorem NodeMap.lookup_none_of_hasKey_false {k : String} :
    ∀ (ch : NodeMap), ch.hasKey k = false → ch.lookup k = none
  | .nil, _ => rfl
  | .cons k' n rest, h => by
      simp only [NodeMap.hasKey, Bool.or_eq_false_iff] at h
      simp only [NodeMap.lookup]
      rw [if_neg (by simpa using h.1)]
      exact NodeMap.lookup_none_of_hasKey_false rest h.2

theorem NodeMap.lookup_erase_self {k : String} :
    ∀ (ch : NodeMap), ch.keysNodup = true → (ch.erase k).lookup k = none
  | .nil, _ => rfl
  | .cons k' n rest, h => by
      simp only [NodeMap.keysNodup, Bool.and_eq_true, Bool.not_eq_true'] at h
      by_cases hk : k' = k
      · simp only [NodeMap.erase, if_pos hk]
        exact NodeMap.lookup_none_of_hasKey_false rest (hk ▸ h.1)
      · simp only [NodeMap.erase, if_neg hk, NodeMap.lookup, if_neg hk]
        exact NodeMap.lookup_erase_self rest h.2

theorem NodeMap.allWf_lookup {k : String} {c : Node} :
    ∀ (ch : NodeMap), ch.allWf = true → ch.lookup k = some c → c.wf = true
  | .nil, _, h => by simp [NodeMap.lookup] at h
  | .cons k' n rest, hwf, h => by
      simp only [NodeMap.allWf, Bool.and_eq_true] at hwf
      by_cases hk : k' = k
      · simp only [NodeMap.lookup, if_pos hk] at h
        injection h with h
        exact h ▸ hwf.1
      · simp only [NodeMap.lookup, if_neg hk] at h
        exact NodeMap.allWf_lookup rest hwf.2 h

theorem Node.wf_keysNodup {n : Node} (h : n.wf = true) :
    n.children.keysNodup = true := by
  cases n with
  | mk name ch v ty =>
      simp only [Node.wf, Bool.and_eq_true] at h
      exact h.1

theorem Node.wf_allWf {n : Node} (h : n.wf = true) :
    n.children.allWf = true := by
  cases n with
  | mk name ch v ty =>
      simp only [Node.wf, Bool.and_eq_true] at h
      exact h.2

theorem walkNoCreate_wf {ps : List String} :
    ∀ {n m : Node}, n.wf = true → walkNoCreate n ps = some m → m.wf = true := by
  induction ps with
  | nil =>
      intro n m hwf h
      simp only [walkNoCreate] at h
      injection h with h
      exact h ▸ hwf
  | cons p rest ih =>
      intro n m hwf h
      simp only [walkNoCreate] at h
      cases hc : n.children.lookup p with
      | none => simp [hc] at h
      | some c =>
          simp only [hc] at h
          exact ih (NodeMap.allWf_lookup _ (Node.wf_allWf hwf) hc) h

/-- A walk that created its way down from a fresh interior node ends on a
node with no children: created nodes start empty, and everything below a
created node is itself created. -/
theorem walkCreate_from_new {strict : Bool} {path : String} :
    ∀ (rest : List String) {name : String} {c' m : Node},
      walkCreate strict path (Node.new name) rest = .ok c' →
      walkNoCreate c' rest = some m → m.children.isEmpty = true
  | [], _, c', m, hw, hm => by
      simp only [walkCreate] at hw
      injection hw with hw
      simp only [walkNoCreate] at hm
      injection hm with hm
      simp [← hm, ← hw, Node.new, Node.children, NodeMap.isEmpty]
  | q :: rest', name, c', m, hw, hm => by
      simp only [walkCreate, Node.new, Node.children, NodeMap.lookup] at hw
      cases hstrict : strict with
      | true => rw [hstrict] at hw; simp at hw
      | false =>
          rw [hstrict] at hw
          rw [if_neg (by decide)] at hw
          cases hrec : walkCreate false path (Node.mk q .nil none none) rest' with
          | error e =>
              simp only [hrec] at hw
              exact Except.noConfusion hw
          | ok c'' =>
              simp only [hrec] at hw
              injection hw with hw
              rw [← hw] at hm
              simp [walkNoCreate, Node.withChildren, Node.children,
                NodeMap.append1, NodeMap.lookup] at hm
              exact walkCreate_from_new rest' hrec hm

/-- The heart of the structural guard: if the node `_walk(create=True)`
resolves has children, then nothing was created on the way — the whole
path already existed and the tree is exactly what it was. -/
theorem walkCreate_unchanged {strict : Bool} {path : String} :
    ∀ (ps : List String) {n n' m : Node},
      walkCreate strict path n ps = .ok n' →
      walkNoCreate n' ps = some m → m.children.isEmpty = false →
      n' = n ∧ walkNoCreate n ps = some m
  | [], n, n', m, hw, hm, _ => by
      simp only [walkCreate] at hw
      injection hw with hw
      exact ⟨hw.symm, hw ▸ hm⟩
  | p :: rest, n, n', m, hw, hm, hne => by
      simp only [walkCreate] at hw
      cases hc : n.children.lookup p with
      | some c =>
          simp only [hc] at hw
          cases hrec : walkCreate strict path c rest with
          | error e =>
              simp only [hrec] at hw
              exact Except.noConfusion hw
          | ok c' =>
              simp only [hrec] at hw
              injection hw with hw
              rw [← hw] at hm
              simp only [walkNoCreate, Node.children_withChildren,
                NodeMap.lookup_replace _ _ hc] at hm
              obtain ⟨hcc, hwalk⟩ := walkCreate_unchanged rest hrec hm hne
              subst hcc
              rw [NodeMap.replace_self _ hc, Node.withChildren_self] at hw
              refine ⟨hw.symm, ?_⟩
              simp only [walkNoCreate, hc]
              exact hwalk
      | none =>
          simp only [hc] at hw
          cases hstrict : strict with
          | true => rw [hstrict] at hw; simp at hw
          | false =>
              rw [hstrict] at hw
              rw [if_neg (by decide)] at hw
              cases hrec : walkCreate false path (Node.new p) rest with
              | error e =>
                  simp only [hrec] at hw
                  exact Except.noConfusion hw
              | ok c' =>
                  simp only [hrec] at hw
                  injection hw with hw
                  rw [← hw] at hm
                  simp only [walkNoCreate, Node.children_withChildren,
                    NodeMap.lookup_append1_of_none _ _ hc] at hm
                  have := walkCreate_from_new rest hrec hm
                  rw [this] at hne
                  exact absurd hne (by simp)

mutual
/-- `Node.from_primitive` only ever fails with the invalid-format error. -/
theorem from_primitive_err (name : String) :
    ∀ (v : PyVal) (e : Err), Node.from_primitive name v = .error e →
      ∃ m, e = .invalidFormat m
  | .dict es, e, h => by
      simp only [Node.from_primitive] at h
      cases hes : NodeMap.fromEntries es with
      | ok ch =>
          simp only [hes] at h
          exact Except.noConfusion h
      | error e' =>
          simp only [hes] at h
          injection h with h
          exact h ▸ fromEntries_err es e' hes
  | .str _, e, h => by simp [Node.from_primitive] at h
  | .int _, e, h => by simp [Node.from_primitive] at h
  | .float _, e, h => by simp [Node.from_primitive] at h
  | .bool _, e, h => by simp [Node.from_primitive] at h
  | .null, e, h => by simp [Node.from_primitive] at h

/-- `NodeMap.fromEntries` only ever fails with the invalid-format error. -/
theorem fromEntries_err :
    ∀ (es : Entries) (e : Err), NodeMap.fromEntries es = .error e →
      ∃ m, e = .invalidFormat m
  | .nil, e, h => by simp [NodeMap.fromEntries] at h
  | .cons (.nonstr _) _ _, e, h => by
      simp only [NodeMap.fromEntries] at h
      injection h with h
      exact ⟨_, h.symm⟩
  | .cons (.str s) v rest, e, h => by
      simp only [NodeMap.fromEntries] at h
      cases hn : Node.from_primitive s v with
      | error e' =>
          simp only [hn] at h
          injection h with h
          exact h ▸ from_primitive_err s v e' hn
      | ok n =>
          simp only [hn] at h
          cases hr : NodeMap.fromEntries rest with
          | ok ch =>
              simp only [hr] at h
              exact Except.noConfusion h
          | error e' =>
              simp only [hr] at h
              injection h with h
              exact h ▸ fromEntries_err rest e' hr
end

/-- Whatever root the rebuild loop has reached, a non-string key further
down the entry list makes `load_dict`'s loop fail with the invalid-format
error (whichever of the key check or a nested rebuild failure hits first). -/
theorem loadEntries_err_of_nonstr :
    ∀ (es : Entries) (root : Node), es.hasNonStrKey = true →
      ∃ m root', loadEntries root es = (.error (.invalidFormat m), root')
  | .nil, root, h => by simp [Entries.hasNonStrKey] at h
  | .cons (.nonstr t) v rest, root, _ =>
      ⟨"All keys must be strings.", root, rfl⟩
  | .cons (.str s) v rest, root, h => by
      simp only [Entries.hasNonStrKey] at h
      cases hn : Node.from_primitive s v with
      | ok child =>
          simp only [loadEntries, hn]
          exact loadEntries_err_of_nonstr rest _ h
      | error e =>
          obtain ⟨m, hm⟩ := from_primitive_err s v e hn
          exact ⟨m, root, by simp only [loadEntries, hn, hm]⟩

theorem splitPath_ok_ne_nil {p : String} {parts : List String}
    (h : ConfigTree.splitPath p = .ok parts) : parts ≠ [] := by
  simp only [ConfigTree.splitPath] at h
  by_cases he : ((pySplit p).filter (fun s => s ≠ "")).isEmpty
  · rw [if_pos he] at h
    exact Except.noConfusion h
  · rw [if_neg he] at h
    injection h with h
    intro hnil
    rw [h, hnil] at he
    exact he rfl

theorem dropLast_append_getLastD (a : String) :
    ∀ (l : List String), (a :: l).dropLast ++ [(a :: l).getLastD ""] = a :: l
  | [] => rfl
  | b :: l' => by
      show a :: ((b :: l').dropLast ++ [(b :: l').getLastD ""]) = a :: b :: l'
      rw [dropLast_append_getLastD b l']

/-! ## Concrete trees used by individual claims -/

/-- The tree `src/tests/test_bin.py` builds: one each of string, integer,
float and boolean leaves (45.5 is the rational 91/2). -/
def binDemoTree : ConfigTree :=
  ((((ConfigTree.fresh.set "server.name" (.str "Alpha")).snd.set
      "server.port" (.int 8080)).snd.set
      "server.active" (.bool true)).snd.set
      "server.load" (.float (mkRat 91 2))).snd

/-- A tree holding both a segment `"a "` (trailing space) and a segment
`"a"`, each with a child `"b"`. -/
def whitespaceTree : ConfigTree :=
  ((ConfigTree.fresh.set "a .b" (.int 1)).snd.set "a.b" (.int 2)).snd

/-- A three-level chain `a.b.c`. -/
def chainTree : ConfigTree :=
  (ConfigTree.fresh.set "a.b.c" (.int 1)).snd

/-! ## Claim theorems -/

/-- Claim C9: with strict mode on, `set` fails with the strict-mode error
whenever any missing segment would have to be created — whenever `set`
fails that way, nothing was created (the tree is unchanged) — and in
particular `set("x", 1)` on an empty strict tree, where the only missing
segment is the final one, fails naming the full path and creates nothing. -/
theorem strict_set_rejects_final_segment :
    (∀ (t : ConfigTree) (p : String) (v : PyVal),
        (t.set p v).fst = .error (.strictMode p) → (t.set p v).snd = t) ∧
    ConfigTree.freshStrict.set "x" (.int 1) =
      (.error (.strictMode "x"), ConfigTree.freshStrict) := by
  refine ⟨?_, rfl⟩
  intro t p v h
  simp only [ConfigTree.set] at h ⊢
  cases hsp : ConfigTree.splitPath p with
  | error e =>
      simp only [hsp] at h ⊢
  | ok parts =>
      simp only [hsp] at h ⊢
      cases hwc : walkCreate t.strict_mode p t.root parts with
      | error e => simp only [hwc] at h ⊢
      | ok root' =>
          simp only [hwc] at h ⊢
          cases hwn : walkNoCreate root' parts with
          | none =>
              simp only [hwn] at h
              exact absurd h (by simp)
          | some node =>
              simp only [hwn] at h
              by_cases hemp : node.children.isEmpty = true
              · rw [if_pos hemp] at h
                exact absurd h (by simp)
              · rw [if_neg hemp] at h
                exact absurd h (by simp)

/-- Claim C9 witness: the strict-mode failure of `set("x", 1)` on an empty
strict tree leaves the tree unchanged. -/
theorem strict_set_rejects_final_segment_witness :
    (ConfigTree.freshStrict.set "x" (.int 1)).snd = ConfigTree.freshStrict :=
  strict_set_rejects_final_segment.1 ConfigTree.freshStrict "x" (.int 1) rfl

/-- Claim C4: with strict mode on and `"x"` absent, `set("x.y", 1)` fails
with the strict-mode error naming the full requested path and creates
nothing; with strict mode off the same call succeeds, `"x"` becomes an
interior node (no value, one child) and `"x.y"` a leaf holding integer 1. -/
theorem strict_mode_write_policy :
    ConfigTree.freshStrict.set "x.y" (.int 1) =
      (.error (.strictMode "x.y"), ConfigTree.freshStrict) ∧
    (ConfigTree.fresh.set "x.y" (.int 1)).fst = .ok (.int 1) ∧
    walkNoCreate (ConfigTree.fresh.set "x.y" (.int 1)).snd.root ["x"] =
      some (Node.mk "x"
        (.cons "y" (Node.mk "y" .nil (some (.int 1)) (some .integer)) .nil)
        none none) ∧
    walkNoCreate (ConfigTree.fresh.set "x.y" (.int 1)).snd.root ["x", "y"] =
      some (Node.mk "y" .nil (some (.int 1)) (some .integer)) :=
  ⟨rfl, rfl, rfl, rfl⟩

/-- Claim C10: the segment `"root"` never addresses the root node: with
strict mode off, `set("root", v)` creates an ordinary child literally named
`"root"`, `get("root")` reads it back, yet `delete("root")` fails with the
node-structure error on every tree, so that child can never be deleted via
its own path; and `get("root.x")` looks for a child named `"root"` instead
of starting at the root, failing even when `get("x")` succeeds. -/
theorem root_segment_is_ordinary :
    (∀ t : ConfigTree, t.delete "root" =
        (.error (.nodeStructure "root" "Cannot delete root node."), t)) ∧
    (ConfigTree.fresh.set "root" (.int 7)).fst = .ok (.int 7) ∧
    walkNoCreate (ConfigTree.fresh.set "root" (.int 7)).snd.root ["root"] =
      some (Node.mk "root" .nil (some (.int 7)) (some .integer)) ∧
    (ConfigTree.fresh.set "root" (.int 7)).snd.get "root" = .ok (.int 7) ∧
    ((ConfigTree.fresh.set "x" (.int 5)).snd.set "root" (.int 7)).snd.get "x" =
      .ok (.int 5) ∧
    ((ConfigTree.fresh.set "x" (.int 5)).snd.set "root" (.int 7)).snd.get "root.x" =
      .error (.pathNotFound "root.x") :=
  ⟨fun _ => rfl, rfl, rfl, rfl, rfl, rfl⟩

/-- Claim C1 evaluation: the code violates the mutual-exclusion invariant.
After `set("a", 1)`, the call `set("a.b", 2)` succeeds — `_walk` happily
creates a child under the leaf `"a"` without clearing or checking its
value — leaving the node `"a"` with BOTH the scalar value 1 and the child
`"b"`, with no structural error ever raised. -/
theorem mutual_exclusion_violated :
    ((ConfigTree.fresh.set "a" (.int 1)).snd.set "a.b" (.int 2)).fst =
      .ok (.int 2) ∧
    walkNoCreate ((ConfigTree.fresh.set "a" (.int 1)).snd.set "a.b"
        (.int 2)).snd.root ["a"] =
      some (Node.mk "a"
        (.cons "b" (Node.mk "b" .nil (some (.int 2)) (some .integer)) .nil)
        (some (.int 1)) (some .integer)) :=
  ⟨rfl, rfl⟩

/-- Claim C3: binary persistence round trip on the tree of
`src/tests/test_bin.py` (one string, one integer, one float, one boolean
leaf): saving, loading into a fresh tree and calling `to_dict` yields a
mapping identical in keys, nesting and scalar kinds to the original's. -/
theorem bin_round_trip :
    binDemoTree.to_dict = .dict (.cons (.str "server") (.dict
      (.cons (.str "name") (.str "Alpha")
      (.cons (.str "port") (.int 8080)
      (.cons (.str "active") (.bool true)
      (.cons (.str "load") (.float (mkRat 91 2)) .nil))))) .nil) ∧
    (ConfigTree.fresh.load_from_bin binDemoTree.save_to_bin).fst = .ok () ∧
    (ConfigTree.fresh.load_from_bin binDemoTree.save_to_bin).snd.to_dict =
      binDemoTree.to_dict :=
  ⟨rfl, rfl, rfl⟩

/-- Claim C5: for every tree, valid path and scalar value, a `set` that
succeeds returns the stored value itself, and a subsequent `get` on the
resulting tree returns that same value — the same `PyVal`, so its scalar
kind (constructor) is preserved and an integer stays distinguishable from
its string rendering. -/
theorem set_get_roundtrip (t : ConfigTree) (p : String) (v w : PyVal)
    (_hscalar : v.isScalar = true)
    (hok : (t.set p v).fst = .ok w) :
    w = v ∧ (t.set p v).snd.get p = .ok v := by
  simp only [ConfigTree.set] at hok ⊢
  cases hsp : ConfigTree.splitPath p with
  | error e =>
      simp only [hsp] at hok
      exact absurd hok (by simp)
  | ok parts =>
      simp only [hsp] at hok ⊢
      cases hwc : walkCreate t.strict_mode p t.root parts with
      | error e =>
          simp only [hwc] at hok
          exact absurd hok (by simp)
      | ok root' =>
          simp only [hwc] at hok ⊢
          cases hwn : walkNoCreate root' parts with
          | none =>
              simp only [hwn] at hok
              exact absurd hok (by simp)
          | some node =>
              simp only [hwn] at hok ⊢
              by_cases hemp : node.children.isEmpty = true
              · rw [if_pos hemp] at hok
                injection hok with hok
                refine ⟨hok.symm, ?_⟩
                rw [if_pos hemp]
                simp only [ConfigTree.get, hsp]
                rw [walkNoCreate_updateAt
                  (fun n => Node.mk n.name .nil (some v) (Node.infer_type v)) hwn]
                simp [Node.to_primitive]
              · rw [if_neg hemp] at hok
                exact absurd hok (by simp)

/-- Claim C5 witness: `set("a.b", 7)` on a fresh tree succeeds and `get`
reads the integer 7 back. -/
theorem set_get_roundtrip_witness :
    (ConfigTree.fresh.set "a.b" (.int 7)).fst = .ok (.int 7) ∧
    (ConfigTree.fresh.set "a.b" (.int 7)).snd.get "a.b" = .ok (.int 7) :=
  ⟨rfl, (set_get_roundtrip ConfigTree.fresh "a.b" (.int 7) (.int 7) rfl rfl).2⟩

/-- Claim C6: whenever the node `set` resolves currently owns children,
`set` fails with the node-structure error and the tree — in particular the
subtree rooted at that node — is left exactly as it was: nothing was
created on the way (`walkCreate_unchanged`) and nothing is written. -/
theorem set_structural_guard (t : ConfigTree) (p : String) (v : PyVal)
    (parts : List String) (root' node : Node)
    (hsp : ConfigTree.splitPath p = .ok parts)
    (hwc : walkCreate t.strict_mode p t.root parts = .ok root')
    (hwn : walkNoCreate root' parts = some node)
    (hne : node.children.isEmpty = false) :
    t.set p v =
      (.error (.nodeStructure p
          "Cannot assign value to an interior node; it has children."), t) := by
  obtain ⟨hroot, _⟩ := walkCreate_unchanged parts hwc hwn hne
  simp only [ConfigTree.set, hsp, hwc, hwn]
  rw [if_neg (by simp [hne])]
  rw [hroot]

/-- Claim C6 witness: after `set("a.b", 1)`, the call `set("a", 2)` fails
with the node-structure error, the tree is unchanged, and `"a.b"` still
resolves to 1. -/
theorem set_structural_guard_witness :
    (ConfigTree.fresh.set "a.b" (.int 1)).snd.set "a" (.int 2) =
      (.error (.nodeStructure "a"
          "Cannot assign value to an interior node; it has children."),
        (ConfigTree.fresh.set "a.b" (.int 1)).snd) ∧
    (ConfigTree.fresh.set "a.b" (.int 1)).snd.get "a.b" = .ok (.int 1) :=
  ⟨set_structural_guard (ConfigTree.fresh.set "a.b" (.int 1)).snd "a" (.int 2)
      ["a"] _ _ rfl rfl rfl rfl, rfl⟩

/-- Claim C8: for a valid path other than the root path, when the parent
`delete` resolves does not exist, or exists but has no child under the
final segment, `delete` returns `false` with no error and the tree is
unchanged. -/
theorem delete_absent_returns_false (t : ConfigTree) (p : String)
    (parts pparts : List String)
    (hsp : ConfigTree.splitPath p = .ok parts)
    (hroot : parts ≠ ["root"])
    (hpp : deleteParentParts parts = .ok pparts)
    (habsent : ∀ parent, walkNoCreate t.root pparts = some parent →
        parent.children.lookup (parts.getLastD "") = none) :
    t.delete p = (.ok false, t) := by
  simp only [ConfigTree.delete, hsp]
  rw [if_neg hroot]
  simp only [hpp]
  cases hw : walkNoCreate t.root pparts with
  | none => rfl
  | some parent => simp only [habsent parent hw]

/-- Claim C8 witness: deleting the never-created path `"x.y"` on a fresh
tree returns `false` and leaves the tree unchanged. -/
theorem delete_absent_returns_false_witness :
    ConfigTree.fresh.delete "x.y" = (.ok false, ConfigTree.fresh) :=
  delete_absent_returns_false ConfigTree.fresh "x.y" ["x", "y"] ["x"]
    rfl (by decide) rfl (fun parent h => Option.noConfusion h)

/-- Claim C2 (amended): `load_dict` fails with the invalid-format error
when the input is not a mapping — and only in that case is the previous
tree guaranteed unchanged — and it also fails with the invalid-format
error whenever some top-level key is not a string; but in the latter case
`root` has already been replaced before the keys are checked, so the
previous tree is not preserved. -/
theorem load_dict_validation :
    (∀ (t : ConfigTree) (d : PyVal), d.isDict = false →
        t.load_dict d =
          (.error (.invalidFormat "Top-level configuration must be a dict."), t)) ∧
    (∀ (t : ConfigTree) (es : Entries), es.hasNonStrKey = true →
        ∃ m t', t.load_dict (.dict es) = (.error (.invalidFormat m), t')) := by
  constructor
  · intro t d hd
    cases d with
    | dict es => simp [PyVal.isDict] at hd
    | str s => rfl
    | int n => rfl
    | float q => rfl
    | bool b => rfl
    | null => rfl
  · intro t es h
    obtain ⟨m, root', hle⟩ := loadEntries_err_of_nonstr es (Node.new "root") h
    exact ⟨m, { t with root := root' }, by simp only [ConfigTree.load_dict, hle]⟩

/-- Claim C2 witness: a non-mapping input is rejected with the tree
unchanged, and a mapping with a non-string top-level key is rejected with
the invalid-format error. -/
theorem load_dict_validation_witness :
    ConfigTree.fresh.load_dict (.int 3) =
      (.error (.invalidFormat "Top-level configuration must be a dict."),
        ConfigTree.fresh) ∧
    ∃ m t', ConfigTree.fresh.load_dict
        (.dict (.cons (.nonstr 0) (.int 1) .nil)) =
      (.error (.invalidFormat m), t') :=
  ⟨load_dict_validation.1 ConfigTree.fresh (.int 3) rfl,
   load_dict_validation.2 ConfigTree.fresh (.cons (.nonstr 0) (.int 1) .nil) rfl⟩

/-- Claim C2 counterexample: `load_dict` is not atomic. On a tree holding
`{"a": 1}`, loading the mapping whose single key is the non-string key
`nonstr 0` fails with the invalid-format error — as the claim says — but
the previously existing tree is NOT left unchanged: `to_dict` afterwards
returns the empty mapping, because `tree.py` line 176 installs a fresh
root before line 179 checks the keys. -/
theorem load_dict_atomicity_counterexample :
    ((ConfigTree.fresh.set "a" (.int 1)).snd.load_dict
        (.dict (.cons (.nonstr 0) (.int 1) .nil))).fst =
      .error (.invalidFormat "All keys must be strings.") ∧
    ((ConfigTree.fresh.set "a" (.int 1)).snd.load_dict
        (.dict (.cons (.nonstr 0) (.int 1) .nil))).snd.to_dict ≠
      (ConfigTree.fresh.set "a" (.int 1)).snd.to_dict := by
  refine ⟨rfl, ?_⟩
  intro h
  have h' : PyVal.dict .nil =
      PyVal.dict (.cons (.str "a") (.int 1) .nil) := h
  injection h' with h'
  exact Entries.noConfusion h'

/-- Claim C7 counterexample: on a tree holding both the segment `"a "`
(trailing space, created by `set("a .b", 1)`) and the segment `"a"`
(created by `set("a.b", 2)`), `delete("a .b")` returns `true` — but a
subsequent `get("a .b")` still succeeds with 1 instead of failing with
the path-not-found error. `delete` re-joins the leading segments and
re-splits them (`tree.py` lines 148-149), and the re-split strips the
trailing space, so it pops `"b"` from the node `"a"` while `get` walks
the untouched node `"a "`. -/
theorem delete_get_counterexample :
    (whitespaceTree.delete "a .b").fst = .ok true ∧
    (whitespaceTree.delete "a .b").snd.get "a .b" = .ok (.int 1) :=
  ⟨rfl, rfl⟩

/-- Claim C7 (amended): for a well-formed tree (children mappings never
hold duplicate names — true of every tree the Python program can hold,
its children being dicts) and a path whose re-split parent path is exactly
its leading segments (true of every path without whitespace-padded
segments), `delete(p)` returning `true` implies that `get` fails with the
path-not-found error on `p` itself and on every path extending `p`'s
segments — the whole subtree is gone. -/
theorem delete_removes_subtree (t t' : ConfigTree) (p q : String)
    (parts qtail : List String)
    (hwf : t.root.wf = true)
    (hp : ConfigTree.splitPath p = .ok parts)
    (halign : deleteParentParts parts = .ok parts.dropLast)
    (hdel : t.delete p = (.ok true, t'))
    (hq : ConfigTree.splitPath q = .ok (parts ++ qtail)) :
    t'.get q = .error (.pathNotFound q) := by
  obtain ⟨a, l, hal⟩ := List.exists_cons_of_ne_nil (splitPath_ok_ne_nil hp)
  have hsplit : parts.dropLast ++ [parts.getLastD ""] = parts := by
    rw [hal]
    exact dropLast_append_getLastD a l
  simp only [ConfigTree.delete, hp] at hdel
  by_cases hr : parts = ["root"]
  · rw [if_pos hr] at hdel
    simp at hdel
  · rw [if_neg hr] at hdel
    simp only [halign] at hdel
    cases hpar : walkNoCreate t.root parts.dropLast with
    | none =>
        rw [hpar] at hdel
        simp at hdel
    | some parent =>
        rw [hpar] at hdel
        cases hkey : parent.children.lookup (parts.getLastD "") with
        | none =>
            simp only [hkey] at hdel
            simp at hdel
        | some child =>
            simp only [hkey] at hdel
            injection hdel with _ h2
            have hroot' : t'.root = updateAt t.root parts.dropLast
                (fun n => n.withChildren
                  (n.children.erase (parts.getLastD ""))) := by
              rw [← h2]
            have hup := walkNoCreate_updateAt
              (fun n => n.withChildren (n.children.erase (parts.getLastD "")))
              hpar
            have hwfp : parent.wf = true := walkNoCreate_wf hwf hpar
            have hkey2 : (parent.withChildren
                (parent.children.erase (parts.getLastD ""))).children.lookup
                  (parts.getLastD "") = none := by
              rw [Node.children_withChildren]
              exact NodeMap.lookup_erase_self _ (Node.wf_keysNodup hwfp)
            have hparts2 : parts ++ qtail =
                parts.dropLast ++ (parts.getLastD "" :: qtail) := by
              conv_lhs => rw [← hsplit]
              simp
            have hnone : walkNoCreate t'.root (parts ++ qtail) = none := by
              rw [hroot', hparts2, walkNoCreate_append, hup]
              simp only [Option.some_bind, walkNoCreate, hkey2]
            simp only [ConfigTree.get, hq, hnone]

/-- Claim C7 witness: on the chain `a.b.c`, deleting `"a.b"` returns
`true`, and both `get("a.b")` and the descendant `get("a.b.c")` then fail
with the path-not-found error. -/
theorem delete_removes_subtree_witness :
    (chainTree.delete "a.b").fst = .ok true ∧
    (chainTree.delete "a.b").snd.get "a.b" = .error (.pathNotFound "a.b") ∧
    (chainTree.delete "a.b").snd.get "a.b.c" =
      .error (.pathNotFound "a.b.c") :=
  ⟨rfl,
   delete_removes_subtree chainTree (chainTree.delete "a.b").snd "a.b" "a.b"
     ["a", "b"] [] rfl rfl rfl rfl rfl,
   delete_removes_subtree chainTree (chainTree.delete "a.b").snd "a.b" "a.b.c"
     ["a", "b"] ["c"] rfl rfl rfl rfl rfl⟩

/-- Claim C10 witness: `delete("root")` fails with the node-structure
error on a concrete non-empty tree, which stays unchanged. -/
theorem root_segment_is_ordinary_witness :
    chainTree.delete "root" =
      (.error (.nodeStructure "root" "Cannot delete root node."), chainTree) :=
  root_segment_is_ordinary.1 chainTree
